import Mathlib

/-!
Verification of the EchoNote blog engine core against its specification:
unique slug assignment (apps/common/models.py, SluggedModel), the post
publication lifecycle and derived content (apps/blog/models.py, Post.save),
comment threading and moderation (apps/blog/forms.py CommentForm,
apps/blog/views.py submit_comment and PostDetailView), and the listing
predicates (PostQuerySet.published / featured_first).

Modelling conventions: timestamps and row identifiers are abstract Nat
instants; database tables are lists of records; SQL ORDER BY is modelled as a
stable sort; the markdown renderer (an external library) is an abstract
String to String parameter.
-/

namespace EchoNote

/-- ASCII whitespace, the characters matched by the regex class backslash-s
in Python for ASCII input (space, tab, newline, carriage return, vertical
tab, form feed). -/
def isPySpace (c : Char) : Bool :=
  c = ' ' || c = '\t' || c = '\n' || c = '\r' || c = '\x0b' || c = '\x0c'

/-- ASCII word characters, the regex class backslash-w restricted to ASCII:
letters, digits and the underscore. -/
def isWordChar (c : Char) : Bool :=
  ('a' ≤ c && c ≤ 'z') || ('A' ≤ c && c ≤ 'Z') || ('0' ≤ c && c ≤ '9') || c = '_'

/-- One pass of the second regex substitution in django.utils.text.slugify:
every maximal run of hyphens and whitespace is replaced by a single hyphen.
The boolean argument records whether the previous character belonged to such
a run. -/
def collapseSeps : List Char → Bool → List Char
  | [], _ => []
  | c :: rest, prevSep =>
    if c = '-' || isPySpace c then
      if prevSep then collapseSeps rest true else '-' :: collapseSeps rest true
    else c :: collapseSeps rest false

/-- Characters removed from both ends by the final strip("-_") of slugify. -/
def isStripChar (c : Char) : Bool := c = '-' || c = '_'

/-- Remove leading and trailing hyphens and underscores, as str.strip("-_"). -/
def stripEnds (l : List Char) : List Char :=
  ((l.dropWhile (isStripChar ·)).reverse.dropWhile (isStripChar ·)).reverse

/-- django.utils.text.slugify with allow_unicode = False: NFKD-normalise and
drop what does not encode to ASCII (modelled as dropping non-ASCII
characters), lowercase, delete every character that is not a word character,
whitespace or hyphen, collapse runs of hyphens and whitespace into single
hyphens, and strip hyphens and underscores from both ends. -/
def slugify (s : String) : String :=
  let ascii := s.data.filter (fun c => c.toNat < 128)
  let lowered := ascii.map Char.toLower
  let kept := lowered.filter (fun c => isWordChar c || isPySpace c || c = '-')
  String.mk (stripEnds (collapseSeps kept false))

/-- The base candidate of SluggedModel.generate_unique_slug: the slugified
source truncated to its first 50 characters, with the constant "item" as a
fallback when that is empty (Python: slugify(src)[:50] or "item"). -/
def slugBase (source : String) : String :=
  let b := String.mk ((slugify source).data.take 50)
  if b = "" then "item" else b

/-- The sequence of candidates probed by the while loop of
generate_unique_slug: the base itself, then base-1, base-2, and so on. -/
def slugCandidate (base : String) : Nat → String
  | 0 => base
  | Nat.succ i => base ++ "-" ++ Nat.repr (i + 1)

/-- SluggedModel.generate_unique_slug: starting from the base candidate,
probe existsCheck (the filter(slug=candidate).exclude(pk=self.pk).exists()
query) and append increasing numeric suffixes until the check fails; return
the first candidate on which the check fails.  The hypothesis states that
the loop terminates, i.e. some probed candidate is free. -/
def generate_unique_slug (existsCheck : String → Bool) (source : String)
    (h : ∃ i, existsCheck (slugCandidate (slugBase source) i) = false) : String :=
  slugCandidate (slugBase source) (Nat.find h)

/-- Post.Status (apps/blog/models.py): draft, scheduled, published. -/
inductive Status where
  | draft
  | scheduled
  | published
deriving DecidableEq

/-- The fields of the Post model relevant to the core: identity, title,
slug, markdown source, derived HTML and reading time, publication status and
timestamp, featured flag, view counter, comment switch, and the version
counter inherited from TimeStampedModel (default 1). -/
structure PostRec where
  id : Nat
  title : String
  slug : String
  body_markdown : String
  body_html : String
  status : Status
  published_at : Option Nat
  is_featured : Bool
  views : Nat
  reading_time : Nat
  allow_comment : Bool
  version : Nat := 1
deriving DecidableEq

/-- The fields of the Category model relevant to the core (name is the slug
source; version from TimeStampedModel). -/
structure CategoryRec where
  id : Nat
  name : String
  slug : String
  version : Nat := 1
deriving DecidableEq

/-- The fields of the Comment model relevant to the core: owning post,
optional authenticated user, optional parent comment, guest nickname and
email (blank strings when absent), content, moderation flag (default false),
creation instant, and the version counter from TimeStampedModel. -/
structure CommentRec where
  id : Nat
  postId : Nat
  userId : Option Nat
  parent : Option Nat
  nickname : String
  email : String
  content : String
  is_approved : Bool
  createdAt : Nat
  version : Nat := 1
deriving DecidableEq

/-- Word count as computed by Python str.split with no separator: the number
of maximal runs of non-whitespace characters.  The boolean flag records
whether the previous character was inside a word. -/
def countWordsAux : List Char → Bool → Nat
  | [], _ => 0
  | c :: rest, inWord =>
    if isPySpace c then countWordsAux rest false
    else (if inWord then 0 else 1) + countWordsAux rest true

/-- len((text or "").split()) from Post.estimate_reading_time. -/
def wordCount (text : String) : Nat := countWordsAux text.data false

/-- Python round(num / den) for natural num and positive den: rounding half
to even.  For den = 200 the float division num / 200.0 is exact at every
half-integer (num a multiple of 100) and never closer than 1/200 to a
half-integer otherwise, so this equals the float computation in the source
for all realistic word counts. -/
def pythonRound (num den : Nat) : Nat :=
  let q := num / den
  let r := num % den
  if 2 * r < den then q
  else if den < 2 * r then q + 1
  else if q % 2 = 0 then q else q + 1

/-- Post.estimate_reading_time: max(1, int(round(words / 200.0))). -/
def estimate_reading_time (text : String) : Nat :=
  max 1 (pythonRound (wordCount text) 200)

/-- The effect of one Post save (models.py, Post.save composed along the
method resolution order with TimeStampedModel.save and SluggedModel.save):
set published_at to the current instant when the status is published and
published_at is unset; re-render body_html from body_markdown (render stands
for the external markdown library); recompute reading_time; increment the
version counter; and fill the slug from the title on first save (assignSlug
stands for generate_unique_slug probed against the table). -/
def post_save (render : String → String) (assignSlug : String → String)
    (now : Nat) (p : PostRec) : PostRec :=
  let p1 := if p.status = Status.published ∧ p.published_at = none then
    { p with published_at := some now } else p
  let p2 := { p1 with
    body_html := render p1.body_markdown,
    reading_time := estimate_reading_time p1.body_markdown }
  let p3 := { p2 with version := p2.version + 1 }
  if p3.slug = "" then { p3 with slug := assignSlug p3.title } else p3

/-- The effect of one Category save: version increment from
TimeStampedModel.save, then slug fill from the name (get_slug_source)
on first save, from SluggedModel.save. -/
def category_save (assignSlug : String → String) (c : CategoryRec) : CategoryRec :=
  let c1 := { c with version := c.version + 1 }
  if c1.slug = "" then { c1 with slug := assignSlug c1.name } else c1

/-- The effect of one Comment save: Comment inherits only
TimeStampedModel.save, which increments the version counter. -/
def comment_save (c : CommentRec) : CommentRec := { c with version := c.version + 1 }

/-- PostQuerySet.published row predicate: status equals PUBLISHED and
published_at is not later than the current instant.  A null published_at
fails the SQL comparison published_at less-or-equal now. -/
def post_is_live (now : Nat) (p : PostRec) : Bool :=
  decide (p.status = Status.published) &&
    (match p.published_at with
     | some t => decide (t ≤ now)
     | none => false)

/-- PostQuerySet.published: filter the table by the published predicate. -/
def published_listing (now : Nat) (posts : List PostRec) : List PostRec :=
  posts.filter (post_is_live now)

/-- Numeric sort key for the first ORDER BY term of featured_first,
F(is_featured).desc: larger keys come first, so featured posts precede
non-featured ones.  is_featured is a non-null boolean column, so the
nulls_last modifier in the source never applies. -/
def featKey (p : PostRec) : Nat := if p.is_featured then 1 else 0

/-- Numeric sort key for the -published_at term: larger instants come
first.  A null published_at is the smallest key (SQLite orders NULL below
every value, hence last under DESC). -/
def pubKey (p : PostRec) : Nat :=
  match p.published_at with
  | some t => t + 1
  | none => 0

/-- Row order produced by order_by(F(is_featured).desc(nulls_last=True),
"-published_at", "-id"): a precedes (or ties) b when its triple of keys is
lexicographically at least that of b, all three components descending. -/
def postBefore (a b : PostRec) : Prop :=
  featKey b < featKey a ∨
    (featKey a = featKey b ∧
      (pubKey b < pubKey a ∨ (pubKey a = pubKey b ∧ b.id ≤ a.id)))

instance : DecidableRel postBefore := fun a b => by
  unfold postBefore; infer_instance

instance : IsTotal PostRec postBefore := by
  constructor; intro a b; unfold postBefore; omega

instance : IsTrans PostRec postBefore := by
  constructor; intro a b c; unfold postBefore; omega

/-- PostQuerySet.featured_first: the table reordered by the three descending
keys; modelled as a stable sort by the row order. -/
def featured_first (posts : List PostRec) : List PostRec :=
  List.insertionSort postBefore posts

/-- The Meta ordering of Comment, ordering = ["created_at"]: ascending
creation instants. -/
def createdLe (a b : CommentRec) : Prop := a.createdAt ≤ b.createdAt

instance : DecidableRel createdLe := fun a b => by
  unfold createdLe; infer_instance

instance : IsTotal CommentRec createdLe := by
  constructor; intro a b; unfold createdLe; omega

instance : IsTrans CommentRec createdLe := by
  constructor; intro a b c; unfold createdLe; omega

/-- The queryset built by PostDetailView.get_context_data for the template
context: comments of the post that are approved and top-level, in the Meta
ordering by created_at. -/
def topLevelComments (store : List CommentRec) (postId : Nat) : List CommentRec :=
  List.insertionSort createdLe
    (store.filter (fun c => decide (c.postId = postId ∧ c.is_approved = true ∧ c.parent = none)))

/-- The reverse accessor comment.replies prefetched by the view: every
comment whose parent is the given comment, in the Meta ordering. -/
def repliesOf (store : List CommentRec) (parentId : Nat) : List CommentRec :=
  List.insertionSort createdLe (store.filter (fun c => decide (c.parent = some parentId)))

/-- Modelled from the spec: the post-detail template, which is not among the
source files, renders each top-level comment of the context followed by its
approved replies; unapproved replies are not rendered (spec 4.4: only
approved replies are listed nested beneath, unapproved comments are never
shown to non-moderator viewers at any depth). -/
def renderedThread (store : List CommentRec) (postId : Nat) :
    List (CommentRec × List CommentRec) :=
  (topLevelComments store postId).map
    (fun c => (c, (repliesOf store c.id).filter (fun r => r.is_approved)))

/-- The data carried by a comment-creation request after form binding: the
authenticated user if any, the posted nickname, email and content. -/
structure CommentInput where
  user : Option Nat
  nickname : String
  email : String
  content : String
deriving DecidableEq

/-- CommentForm validation (forms.py): for an anonymous requester the
nickname and email fields are required and the clean method raises
ValidationError when either is missing; an authenticated requester passes
regardless of the guest fields. -/
def cleanCommentForm (inp : CommentInput) : Except String Unit :=
  if inp.user = none ∧ (inp.nickname = "" ∨ inp.email = "") then
    Except.error "ValidationError"
  else Except.ok ()

/-- The parent lookup of submit_comment (views.py):
Comment.objects.filter(id=parent_id, post=post, is_approved=True,
parent__isnull=True).first(). -/
def findParent (store : List CommentRec) (postId pid : Nat) : Option CommentRec :=
  store.find? (fun c =>
    decide (c.id = pid ∧ c.postId = postId ∧ c.is_approved = true ∧ c.parent = none))

/-- submit_comment (views.py): validate the form; build the comment for the
post, attaching the authenticated user if any; if a parent_id was posted and
a same-post approved top-level comment with that id exists, link it as
parent, otherwise leave the comment top-level; force is_approved to false
and save (which bumps the version counter).  Returns the grown store and the
persisted comment, or the form error. -/
def submit_comment (store : List CommentRec) (postId : Nat) (inp : CommentInput)
    (parent_id : Option Nat) (newId now : Nat) :
    Except String (List CommentRec × CommentRec) :=
  match cleanCommentForm inp with
  | Except.error e => Except.error e
  | Except.ok _ =>
    let parent : Option Nat :=
      match parent_id with
      | some pid =>
        match findParent store postId pid with
        | some p => some p.id
        | none => none
      | none => none
    let c : CommentRec := comment_save
      { id := newId, postId := postId, userId := inp.user, parent := parent,
        nickname := inp.nickname, email := inp.email, content := inp.content,
        is_approved := false, createdAt := now }
    Except.ok (store ++ [c], c)

/-- One step of a view-count session: a request handler either fetches the
post (reading the current views column into its snapshot) or issues the
UPDATE of PostDetailView.get_context_data. -/
inductive ViewStep where
  | read (reader : Nat)
  | write (reader : Nat)
deriving DecidableEq

/-- The views column together with the per-handler snapshots taken when each
handler fetched the post. -/
structure ViewState where
  views : Nat
  snapshot : Nat → Option Nat

/-- Semantics of the source: the view increments by
Post.objects.filter(pk=post.pk).update(views=post.views + 1), writing the
snapshot taken at fetch time plus one.  A write by a handler that never
fetched the post does nothing. -/
def stepCode (s : ViewState) : ViewStep → ViewState
  | ViewStep.read r =>
    { s with snapshot := fun x => if x = r then some s.views else s.snapshot x }
  | ViewStep.write r =>
    match s.snapshot r with
    | some v => { s with views := v + 1 }
    | none => s

/-- Run a whole interleaving of view-count sessions under the semantics of
the source. -/
def runCode (s : ViewState) (trace : List ViewStep) : ViewState :=
  trace.foldl stepCode s

/-- Modelled from the spec: the atomic increment-in-place the specification
asserts for the storage layer (update(views=F(views) + 1)); a write
increments the current column value regardless of any stale snapshot. -/
def stepAtomic (s : ViewState) : ViewStep → ViewState
  | ViewStep.read r =>
    { s with snapshot := fun x => if x = r then some s.views else s.snapshot x }
  | ViewStep.write _ => { s with views := s.views + 1 }

/-- Run a whole interleaving under the atomic semantics of the spec. -/
def runAtomic (s : ViewState) (trace : List ViewStep) : ViewState :=
  trace.foldl stepAtomic s

/-- Number of completed increments in a trace. -/
def numWrites (trace : List ViewStep) : Nat :=
  (trace.filter (fun st => match st with | ViewStep.write _ => true | _ => false)).length

/-- The slug output alphabet actually produced by the code: lowercase ASCII
letters, digits, hyphen and underscore. -/
def isSlugChar (c : Char) : Bool :=
  ('a' ≤ c && c ≤ 'z') || ('0' ≤ c && c ≤ '9') || c = '-' || c = '_'

/-- A source text of 26 letter-underscore pairs; its slug base keeps the
underscores and is truncated to exactly 50 characters. -/
def cexSource : String := "a_a_a_a_a_a_a_a_a_a_a_a_a_a_a_a_a_a_a_a_a_a_a_a_a_a_"

/-- An existence check that reports exactly the base candidate as taken,
modelling a table already holding that slug. -/
def cexExists : String → Bool := fun s => s == slugBase cexSource

/-- An existence check that never reports a collision (empty table). -/
def noClash : String → Bool := fun _ => false

/-- A list of n words, each a single letter followed by a space. -/
def spaceSep : Nat → List Char
  | 0 => []
  | n + 1 => 'a' :: ' ' :: spaceSep n

/-- A text of exactly 400 whitespace-separated words. -/
def wit400 : String := String.mk (spaceSep 400)

/-- An approved top-level comment on post 1. -/
def topComment : CommentRec :=
  { id := 1, postId := 1, userId := none, parent := none, nickname := "g",
    email := "g@example.com", content := "first", is_approved := true, createdAt := 1 }

/-- An approved reply to the top-level comment, i.e. a depth-2 comment. -/
def replyComment : CommentRec :=
  { id := 2, postId := 1, userId := none, parent := some 1, nickname := "h",
    email := "h@example.com", content := "reply", is_approved := true, createdAt := 5 }

/-- A comment table holding one approved top-level comment and one approved
reply to it. -/
def cexStore : List CommentRec := [topComment, replyComment]

/-- A guest comment-creation input carrying only the nickname and email
identity form. -/
def guestInput : CommentInput :=
  { user := none, nickname := "Guest", email := "guest@example.com", content := "hello" }

/-- The comment persisted when the parent lookup fails: top-level,
unapproved, version bumped by the save. -/
def droppedParentComment : CommentRec :=
  { id := 3, postId := 1, userId := none, parent := none, nickname := "Guest",
    email := "guest@example.com", content := "hello", is_approved := false,
    createdAt := 9, version := 2 }

/-- A creation input carrying both identity forms at once: an authenticated
user and a complete guest nickname-email pair. -/
def bothIdentityInput : CommentInput :=
  { user := some 7, nickname := "Guest", email := "guest@example.com", content := "hi" }

/-- A featured post with an old publication instant. -/
def postA : PostRec :=
  { id := 1, title := "A", slug := "a", body_markdown := "", body_html := "",
    status := Status.published, published_at := some 100, is_featured := true,
    views := 0, reading_time := 1, allow_comment := true }

/-- A non-featured post with a newer publication instant. -/
def postB : PostRec :=
  { id := 2, title := "B", slug := "b", body_markdown := "", body_html := "",
    status := Status.published, published_at := some 200, is_featured := false,
    views := 0, reading_time := 1, allow_comment := true }

/-- A post labelled published whose publication instant is still in the
future. -/
def futurePost : PostRec :=
  { id := 3, title := "F", slug := "f", body_markdown := "", body_html := "",
    status := Status.published, published_at := some 10, is_featured := false,
    views := 0, reading_time := 1, allow_comment := true }

/-- A post labelled published whose publication instant has passed. -/
def livePost : PostRec :=
  { id := 4, title := "L", slug := "l", body_markdown := "", body_html := "",
    status := Status.published, published_at := some 3, is_featured := false,
    views := 0, reading_time := 1, allow_comment := true }

/-- The initial storage state for the view-count model: counter at zero, no
handler holds a snapshot. -/
def initViews : ViewState := { views := 0, snapshot := fun _ => none }

/-- An interleaving of three request handlers: handler 1 fetches the post,
handlers 2 and 3 each fetch and update, then handler 1 issues its update
from its stale snapshot. -/
def lostUpdateTrace : List ViewStep :=
  [ViewStep.read 1, ViewStep.read 2, ViewStep.write 2,
   ViewStep.read 3, ViewStep.write 3, ViewStep.write 1]

/-- A save never changes published_at except through the publish-stamping
branch, whose outcome is read off below. -/
lemma post_save_published_at (render assignSlug : String → String) (now : Nat)
    (p : PostRec) :
    (post_save render assignSlug now p).published_at =
      (if p.status = Status.published ∧ p.published_at = none then some now
       else p.published_at) := by
  unfold post_save
  dsimp only
  split <;> split <;> rfl

/-- C3: saving a Post whose status is published and whose published_at is
unset stamps published_at with the current instant; once published_at holds
a value, a save leaves it unchanged whatever else is edited and whatever the
status; and a save of an unpublished post with unset published_at leaves it
unset.  The model covers the whole save chain (timestamping, re-rendering,
version bump, slug fill). -/
theorem publish_timestamp_once (render assignSlug : String → String) (now : Nat)
    (p : PostRec) :
    ((p.status = Status.published ∧ p.published_at = none) →
      (post_save render assignSlug now p).published_at = some now) ∧
    (∀ t, p.published_at = some t →
      (post_save render assignSlug now p).published_at = some t) ∧
    ((p.status ≠ Status.published ∨ p.published_at ≠ none) →
      (post_save render assignSlug now p).published_at = p.published_at) := by
  refine ⟨fun h => ?_, fun t ht => ?_, fun h => ?_⟩ <;>
    rw [post_save_published_at]
  · rw [if_pos h]
  · rw [if_neg (by simp [ht])]
    exact ht
  · have hcond : ¬(p.status = Status.published ∧ p.published_at = none) := by
      rintro ⟨h1, h2⟩
      rcases h with h3 | h3
      · exact h3 h1
      · exact h3 h2
    rw [if_neg hcond]

/-- Witness for C3 at concrete posts: publishing stamps the instant, and a
later save of the already-stamped post does not move it. -/
theorem publish_timestamp_once_witness :
    (post_save id id 42 { postA with published_at := none }).published_at = some 42 ∧
    (post_save id id 99 postA).published_at = some 100 ∧
    (post_save id id 99 { postA with status := Status.draft }).published_at = some 100 :=
  ⟨(publish_timestamp_once id id 42 { postA with published_at := none }).1 ⟨rfl, rfl⟩,
   (publish_timestamp_once id id 99 postA).2.1 100 rfl,
   (publish_timestamp_once id id 99 { postA with status := Status.draft }).2.1 100 rfl⟩

/-- C10: every save of a timestamped entity (post, category, comment)
increments the version counter by exactly one, whatever else the save
changes; iterating n saves from the field default 1 yields n + 1. -/
theorem version_increment_on_save :
    (∀ render assignSlug now p,
      (post_save render assignSlug now p).version = p.version + 1) ∧
    (∀ assignSlug c, (category_save assignSlug c).version = c.version + 1) ∧
    (∀ c : CommentRec, (comment_save c).version = c.version + 1) ∧
    (∀ render assignSlug now p n, p.version = 1 →
      ((post_save render assignSlug now)^[n] p).version = n + 1) := by
  have hpost : ∀ render assignSlug now p,
      (post_save render assignSlug now p).version = p.version + 1 := by
    intro render assignSlug now p
    unfold post_save
    dsimp only
    split <;> split <;> rfl
  refine ⟨hpost, ?_, fun c => rfl, ?_⟩
  · intro assignSlug c
    unfold category_save
    dsimp only
    split <;> rfl
  · intro render assignSlug now p n hp
    induction n generalizing p with
    | zero => simpa using hp
    | succ n ih =>
      rw [Function.iterate_succ_apply' ]
      rw [hpost]
      rw [ih p hp]

/-- Witness for C10 at a concrete post with the default version: two saves
take the counter from 1 to 3. -/
theorem version_increment_on_save_witness :
    (post_save id id 0 postA).version = 2 ∧
    ((post_save id id 0)^[2] postA).version = 3 :=
  ⟨version_increment_on_save.1 id id 0 postA,
   version_increment_on_save.2.2.2 id id 0 postA 2 rfl⟩

/-- A run of whitespace contributes no word, whatever state the scan is
in. -/
lemma countWordsAux_all_space (l : List Char) (hl : ∀ c ∈ l, isPySpace c = true) :
    ∀ b, countWordsAux l b = 0 := by
  induction l with
  | nil => intro b; rfl
  | cons c rest ih =>
    intro b
    have hc : isPySpace c = true := hl c (List.mem_cons_self c rest)
    have hrest : ∀ x ∈ rest, isPySpace x = true :=
      fun x hx => hl x (List.mem_cons_of_mem c hx)
    simp [countWordsAux, hc, ih hrest]

/-- C6: the reading time is max(1, round(wordCount / 200)) with the rounding
of the source (Python round, half to even); empty or whitespace-only input
yields word count 0 and reading time 1, and a 400-word input yields 2. -/
theorem reading_time_spec :
    (∀ text, estimate_reading_time text = max 1 (pythonRound (wordCount text) 200)) ∧
    (∀ text, wordCount text = 0 → estimate_reading_time text = 1) ∧
    (∀ text, (∀ c ∈ text.data, isPySpace c = true) → estimate_reading_time text = 1) ∧
    (∀ text, wordCount text = 400 → estimate_reading_time text = 2) := by
  refine ⟨fun text => rfl, fun text h => ?_, fun text h => ?_, fun text h => ?_⟩
  · unfold estimate_reading_time
    rw [h]
    decide
  · unfold estimate_reading_time wordCount
    rw [countWordsAux_all_space text.data h]
    decide
  · unfold estimate_reading_time
    rw [h]
    decide

/-- The letter-space word list has exactly n words. -/
lemma countWords_spaceSep : ∀ n, countWordsAux (spaceSep n) false = n := by
  intro n
  induction n with
  | zero => rfl
  | succ n ih =>
    show countWordsAux ('a' :: ' ' :: spaceSep n) false = n + 1
    simp [countWordsAux, isPySpace, ih]
    omega

/-- Witness for C6: the concrete 400-word text reads in 2 minutes, the empty
and all-whitespace texts in 1. -/
theorem reading_time_spec_witness :
    wordCount wit400 = 400 ∧
    estimate_reading_time wit400 = 2 ∧
    estimate_reading_time "" = 1 ∧
    estimate_reading_time "  " = 1 :=
  ⟨countWords_spaceSep 400,
   reading_time_spec.2.2.2 wit400 (countWords_spaceSep 400),
   reading_time_spec.2.1 "" rfl,
   reading_time_spec.2.2.1 "  " (by decide)⟩

/-- C8: a post is in the published listing exactly when its status is
published and its publication instant is set and not later than now; the
label alone decides nothing — a concrete post labelled published but with a
future instant is excluded, and two posts with the same label can differ in
inclusion. -/
theorem published_listing_spec :
    (∀ (now : Nat) (posts : List PostRec) (p : PostRec),
      p ∈ published_listing now posts ↔
        (p ∈ posts ∧ p.status = Status.published ∧
          ∃ t, p.published_at = some t ∧ t ≤ now)) ∧
    (futurePost.status = Status.published ∧ published_listing 5 [futurePost] = []) ∧
    (livePost.status = futurePost.status ∧
      published_listing 5 [livePost, futurePost] = [livePost]) := by
  refine ⟨fun now posts p => ?_, ⟨rfl, by decide⟩, ⟨rfl, by decide⟩⟩
  unfold published_listing
  rw [List.mem_filter]
  constructor
  · rintro ⟨hmem, hlive⟩
    unfold post_is_live at hlive
    rcases hpa : p.published_at with _ | t <;> rw [hpa] at hlive <;>
      simp only [Bool.and_eq_true, decide_eq_true_eq] at hlive
    · exact absurd hlive.2 (by simp)
    · exact ⟨hmem, hlive.1, t, rfl, by simpa using hlive.2⟩
  · rintro ⟨hmem, hst, t, hpa, hle⟩
    refine ⟨hmem, ?_⟩
    unfold post_is_live
    rw [hpa]
    simp [hst, hle]

/-- C5 fails on the code: an authenticated user who also supplies the full
guest nickname-email pair is accepted, and the comment is persisted — the
form never rejects the presence of both identity forms. -/
theorem identity_both_forms_accepted :
    bothIdentityInput.user ≠ none ∧
    bothIdentityInput.nickname ≠ "" ∧
    bothIdentityInput.email ≠ "" ∧
    ∃ res, submit_comment [] 1 bothIdentityInput none 1 0 = Except.ok res := by
  refine ⟨by decide, by decide, by decide, ?_⟩
  exact ⟨_, rfl⟩

/-- C5 amended: comment creation fails with ValidationError exactly when the
requester is unauthenticated and the guest nickname or email is missing;
in every other case — including both identity forms at once — it succeeds
and persists the comment. -/
theorem identity_validation_amended (store : List CommentRec) (postId : Nat)
    (inp : CommentInput) (parent_id : Option Nat) (newId now : Nat) :
    (submit_comment store postId inp parent_id newId now =
        Except.error "ValidationError" ↔
      (inp.user = none ∧ (inp.nickname = "" ∨ inp.email = ""))) ∧
    (¬(inp.user = none ∧ (inp.nickname = "" ∨ inp.email = "")) →
      ∃ c, submit_comment store postId inp parent_id newId now =
        Except.ok (store ++ [c], c)) := by
  constructor
  · unfold submit_comment cleanCommentForm
    by_cases h : inp.user = none ∧ (inp.nickname = "" ∨ inp.email = "")
    · rw [if_pos h]
      simpa using h
    · rw [if_neg h]
      simpa using h
  · intro h
    unfold submit_comment cleanCommentForm
    rw [if_neg h]
    exact ⟨_, rfl⟩

/-- Witness for the amended C5 at a concrete incomplete guest input: the
creation fails with ValidationError. -/
theorem identity_validation_amended_witness :
    submit_comment [] 1
        { user := none, nickname := "", email := "", content := "x" } none 1 0 =
      Except.error "ValidationError" ∧
    ∃ c, submit_comment [] 1 bothIdentityInput none 1 0 = Except.ok ([] ++ [c], c) :=
  ⟨(identity_validation_amended [] 1
      { user := none, nickname := "", email := "", content := "x" } none 1 0).1.mpr
      ⟨rfl, Or.inl rfl⟩,
   (identity_validation_amended [] 1 bothIdentityInput none 1 0).2
      (by decide)⟩

/-- C1 fails on the code: with the store holding an approved reply (a
depth-2 comment), a creation request naming that reply as parent does not
fail — no InvalidParentError exists in the code — and the comment is
persisted, silently re-rooted as a top-level comment. -/
theorem invalid_parent_accepted :
    replyComment ∈ cexStore ∧
    replyComment.parent = some 1 ∧
    submit_comment cexStore 1 guestInput (some 2) 3 9 =
      Except.ok (cexStore ++ [droppedParentComment], droppedParentComment) ∧
    droppedParentComment.parent = none := by
  refine ⟨by decide, rfl, ?_, rfl⟩
  rfl

/-- C1 amended: when the posted parent_id does not denote a same-post,
approved, top-level comment (it is missing, on another post, itself a reply,
or unapproved), submit_comment does not fail: the parent reference is
silently dropped and the comment is persisted top-level and unapproved.  A
well-formed identity is assumed, as in the original claim. -/
theorem invalid_parent_silently_dropped (store : List CommentRec) (postId : Nat)
    (inp : CommentInput) (pid newId now : Nat)
    (hform : ¬(inp.user = none ∧ (inp.nickname = "" ∨ inp.email = "")))
    (hbad : ∀ c ∈ store, c.id = pid →
      ¬(c.postId = postId ∧ c.is_approved = true ∧ c.parent = none)) :
    ∃ c, submit_comment store postId inp (some pid) newId now =
        Except.ok (store ++ [c], c) ∧
      c.parent = none ∧ c.is_approved = false ∧ c.postId = postId ∧
      c.content = inp.content := by
  have hfind : findParent store postId pid = none := by
    unfold findParent
    rw [List.find?_eq_none]
    intro c hc
    simp only [decide_eq_true_eq, not_and]
    intro h1 h2 h3
    exact fun h4 => hbad c hc h1 ⟨h2, h3, h4⟩
  have hclean : cleanCommentForm inp = Except.ok () := by
    unfold cleanCommentForm
    rw [if_neg hform]
  unfold submit_comment
  simp only [hclean, hfind]
  exact ⟨_, rfl, rfl, rfl, rfl, rfl⟩

/-- Witness for the amended C1: a parent_id naming no comment at all is
dropped and the comment is persisted top-level. -/
theorem invalid_parent_silently_dropped_witness :
    ∃ c, submit_comment cexStore 1 guestInput (some 99) 4 9 =
        Except.ok (cexStore ++ [c], c) ∧
      c.parent = none ∧ c.is_approved = false ∧ c.postId = 1 ∧
      c.content = guestInput.content :=
  invalid_parent_silently_dropped cexStore 1 guestInput 99 4 9
    (by decide) (by decide)

/-- C9 fails on the code: the update writes a stale snapshot plus one
instead of incrementing in place.  In the concrete interleaving, three
handlers complete their increments, the atomic semantics of the claim ends
at 3, but the code ends at 1 — two increments are lost — and the counter
even decreases from 2 (after five steps) to 1 (after six). -/
theorem view_count_increment_not_atomic :
    numWrites lostUpdateTrace = 3 ∧
    (runAtomic initViews lostUpdateTrace).views = 3 ∧
    (runCode initViews lostUpdateTrace).views = 1 ∧
    (runCode initViews (lostUpdateTrace.take 5)).views = 2 :=
  ⟨rfl, rfl, rfl, rfl⟩

/-- C9 amended: the view-count update is a read-then-write of a stale
snapshot, not an atomic storage-level increment; when handler sessions do
not interleave — each fetch immediately followed by its own update — every
view increments the counter by exactly one, so the serial counter is exact
and non-decreasing. -/
theorem view_count_increment_serial (s : ViewState) (readers : List Nat) :
    (runCode s (readers.flatMap
      (fun r => [ViewStep.read r, ViewStep.write r]))).views =
      s.views + readers.length := by
  induction readers generalizing s with
  | nil => rfl
  | cons r rs ih =>
    show (runCode s (ViewStep.read r :: ViewStep.write r :: rs.flatMap _)).views = _
    unfold runCode
    rw [List.foldl_cons, List.foldl_cons]
    have hstep : stepCode (stepCode s (ViewStep.read r)) (ViewStep.write r) =
        { views := s.views + 1,
          snapshot := fun x => if x = r then some s.views else s.snapshot x } := by
      unfold stepCode
      simp
    rw [hstep]
    have h2 := ih ⟨s.views + 1, fun x => if x = r then some s.views else s.snapshot x⟩
    unfold runCode at h2
    rw [h2]
    simp [List.length_cons]
    omega

/-- C7: featured_first permutes its input, sorts it by the lexicographic
descending key (featured flag, publication instant, identity), any featured
post strictly precedes any non-featured one, and on the concrete pair the
featured-but-older post A comes before the newer non-featured post B. -/
theorem featured_first_spec :
    (∀ posts : List PostRec, List.Perm (featured_first posts) posts) ∧
    (∀ posts : List PostRec, List.Sorted postBefore (featured_first posts)) ∧
    (∀ a b : PostRec, a.is_featured = true → b.is_featured = false →
      postBefore a b ∧ ¬postBefore b a) ∧
    featured_first [postA, postB] = [postA, postB] ∧
    featured_first [postB, postA] = [postA, postB] := by
  refine ⟨fun posts => List.perm_insertionSort postBefore posts,
    fun posts => List.sorted_insertionSort postBefore posts,
    fun a b ha hb => ?_, by decide, by decide⟩
  unfold postBefore featKey
  rw [ha, hb]
  simp

/-- Witness for C7 at the concrete pair: the featured old post strictly
precedes the newer non-featured one. -/
theorem featured_first_spec_witness :
    postBefore postA postB ∧ ¬postBefore postB postA :=
  featured_first_spec.2.2.1 postA postB rfl rfl

/-- C4: the thread handed to the presentation layer lists exactly the
approved top-level comments of the post, ascending by creation instant, each
followed by exactly its approved replies, again ascending by creation
instant; no unapproved comment appears at either depth.  The top-level
filtering and both orderings come from the view and the Comment Meta
ordering; the reply approval filter is the spec-modelled template. -/
theorem comment_thread_visibility (store : List CommentRec) (postId : Nat) :
    ((renderedThread store postId).map Prod.fst = topLevelComments store postId) ∧
    (∀ c, c ∈ topLevelComments store postId ↔
      (c ∈ store ∧ c.postId = postId ∧ c.is_approved = true ∧ c.parent = none)) ∧
    List.Sorted createdLe (topLevelComments store postId) ∧
    (∀ pr ∈ renderedThread store postId,
      pr.1.is_approved = true ∧
      List.Sorted createdLe pr.2 ∧
      (∀ r, r ∈ pr.2 ↔
        (r ∈ store ∧ r.parent = some pr.1.id ∧ r.is_approved = true))) := by
  have hmem : ∀ c, c ∈ topLevelComments store postId ↔
      (c ∈ store ∧ c.postId = postId ∧ c.is_approved = true ∧ c.parent = none) := by
    intro c
    unfold topLevelComments
    rw [List.mem_insertionSort, List.mem_filter]
    exact and_congr_right (fun _ => by simp)
  refine ⟨?_, hmem, List.sorted_insertionSort createdLe _, ?_⟩
  · unfold renderedThread
    rw [List.map_map]
    have hid : (Prod.fst ∘ fun c : CommentRec =>
        (c, (repliesOf store c.id).filter (fun r => r.is_approved))) = id := rfl
    rw [hid, List.map_id]
  · intro pr hpr
    unfold renderedThread at hpr
    rw [List.mem_map] at hpr
    obtain ⟨c, hc, rfl⟩ := hpr
    refine ⟨((hmem c).1 hc).2.2.1, ?_, ?_⟩
    · exact List.Pairwise.sublist (List.filter_sublist _)
        (List.sorted_insertionSort createdLe _)
    · intro r
      unfold repliesOf
      rw [List.mem_filter, List.mem_insertionSort, List.mem_filter]
      simp only [decide_eq_true_eq]
      tauto

/-- Witness for C4 at the concrete two-comment store: the thread of post 1
is the approved top comment with its single approved reply, and the reply
list facts follow from the theorem applied there. -/
theorem comment_thread_visibility_witness :
    topComment ∈ topLevelComments cexStore 1 ∧
    (topComment, [replyComment]).1.is_approved = true ∧
    List.Sorted createdLe (topComment, [replyComment]).2 ∧
    replyComment ∈ (topComment, [replyComment]).2 :=
  ⟨((comment_thread_visibility cexStore 1).2.1 topComment).2
      ⟨by decide, rfl, rfl, rfl⟩,
   ((comment_thread_visibility cexStore 1).2.2.2 (topComment, [replyComment])
      (by decide)).1,
   ((comment_thread_visibility cexStore 1).2.2.2 (topComment, [replyComment])
      (by decide)).2.1,
   (((comment_thread_visibility cexStore 1).2.2.2 (topComment, [replyComment])
      (by decide)).2.2 replyComment).2 ⟨by decide, rfl, rfl⟩⟩

/-- Every character of the collapsed list is either the inserted hyphen or a
non-separator character of the input. -/
lemma mem_collapseSeps {c : Char} :
    ∀ (l : List Char) (b : Bool), c ∈ collapseSeps l b →
      c = '-' ∨ (c ∈ l ∧ (c = '-' || isPySpace c) = false) := by
  intro l
  induction l with
  | nil => intro b h; cases h
  | cons d rest ih =>
    intro b h
    unfold collapseSeps at h
    by_cases hd : (d = '-' || isPySpace d) = true
    · rw [if_pos hd] at h
      have htail : c ∈ collapseSeps rest true →
          c = '-' ∨ (c ∈ d :: rest ∧ (c = '-' || isPySpace c) = false) :=
        fun hx => (ih true hx).imp_right
          (fun hy => ⟨List.mem_cons_of_mem d hy.1, hy.2⟩)
      rcases b with _ | _
      · rw [if_neg (by simp)] at h
        rcases List.mem_cons.1 h with hc | hc
        · exact Or.inl hc
        · exact htail hc
      · rw [if_pos rfl] at h
        exact htail h
    · rw [if_neg hd] at h
      rcases List.mem_cons.1 h with hc | hc
      · subst hc
        exact Or.inr ⟨List.mem_cons_self c rest, by simpa using hd⟩
      · exact (ih false hc).imp_right
          (fun hy => ⟨List.mem_cons_of_mem d hy.1, hy.2⟩)

/-- Stripping ends only removes characters. -/
lemma mem_stripEnds {c : Char} {l : List Char} (h : c ∈ stripEnds l) : c ∈ l := by
  unfold stripEnds at h
  rw [List.mem_reverse] at h
  have h1 : c ∈ (l.dropWhile (isStripChar ·)).reverse :=
    List.Sublist.mem h (List.dropWhile_sublist _)
  rw [List.mem_reverse] at h1
  exact List.Sublist.mem h1 (List.dropWhile_sublist _)

/-- On ASCII input, lowering a character that the word-character filter then
keeps always lands in the lowercase slug alphabet. -/
lemma ascii_toLower_slugChar :
    ∀ n, n < 128 → isWordChar ((Char.ofNat n).toLower) = true →
      isSlugChar ((Char.ofNat n).toLower) = true := by decide

/-- The data list of slugify, unfolded. -/
lemma slugify_data (s : String) :
    (slugify s).data =
      stripEnds (collapseSeps
        (((s.data.filter (fun c => c.toNat < 128)).map Char.toLower).filter
          (fun c => isWordChar c || isPySpace c || c = '-')) false) := rfl

/-- Every character slugify emits lies in the slug alphabet: lowercase
letters, digits, hyphen or underscore. -/
lemma slugify_chars (s : String) : ∀ c ∈ (slugify s).data, isSlugChar c = true := by
  intro c hc
  rw [slugify_data] at hc
  have hc2 := mem_stripEnds hc
  rcases mem_collapseSeps _ false hc2 with hdash | ⟨hkept, hsep⟩
  · subst hdash; decide
  · rw [List.mem_filter] at hkept
    obtain ⟨hlow, hpred⟩ := hkept
    rw [List.mem_map] at hlow
    obtain ⟨a, ha, rfl⟩ := hlow
    rw [List.mem_filter] at ha
    obtain ⟨_, halt⟩ := ha
    have hlt : a.toNat < 128 := by simpa using halt
    have hword : isWordChar a.toLower = true := by
      simp only [Bool.or_eq_true, decide_eq_true_eq] at hpred
      simp only [Bool.or_eq_false_iff, decide_eq_false_iff_not] at hsep
      rcases hpred with (h | h) | h
      · exact h
      · rw [hsep.2] at h
        exact Bool.noConfusion h
      · exact absurd h hsep.1
    have := ascii_toLower_slugChar a.toNat hlt
    rw [Char.ofNat_toNat] at this
    exact this hword

/-- The slug base is at most 50 characters, nonempty, and drawn from the
slug alphabet. -/
lemma slugBase_spec (source : String) :
    (slugBase source).length ≤ 50 ∧ slugBase source ≠ "" ∧
      ∀ c ∈ (slugBase source).data, isSlugChar c = true := by
  unfold slugBase
  dsimp only
  split
  · exact ⟨by decide, by decide, by decide⟩
  · next hne =>
    refine ⟨?_, hne, ?_⟩
    · show ((slugify source).data.take 50).length ≤ 50
      rw [List.length_take]
      omega
    · intro c hc
      exact slugify_chars source c (List.Sublist.mem hc (List.take_sublist _ _))

/-- Decimal digit characters are digits. -/
lemma digitChar_digit :
    ∀ k, k < 10 → ('0' ≤ Nat.digitChar k && Nat.digitChar k ≤ '9') = true := by decide

/-- The digit accumulator of Nat.repr only ever emits digit characters. -/
lemma toDigitsCore_digits :
    ∀ (fuel n : Nat) (ds : List Char),
      (∀ c ∈ ds, ('0' ≤ c && c ≤ '9') = true) →
      ∀ c ∈ Nat.toDigitsCore 10 fuel n ds, ('0' ≤ c && c ≤ '9') = true := by
  intro fuel
  induction fuel with
  | zero => intro n ds hds c hc; exact hds c hc
  | succ fuel ih =>
    intro n ds hds c hc
    unfold Nat.toDigitsCore at hc
    dsimp only at hc
    have hd : ∀ x ∈ Nat.digitChar (n % 10) :: ds, ('0' ≤ x && x ≤ '9') = true := by
      intro x hx
      rcases List.mem_cons.1 hx with hx | hx
      · rw [hx]; exact digitChar_digit (n % 10) (Nat.mod_lt n (by norm_num))
      · exact hds x hx
    split at hc
    · exact hd c hc
    · exact ih (n / 10) _ hd c hc

/-- The decimal representation of a natural number is all digits. -/
lemma repr_digits (n : Nat) :
    ∀ c ∈ (Nat.repr n).data, ('0' ≤ c && c ≤ '9') = true := by
  intro c hc
  have hdata : (Nat.repr n).data = Nat.toDigitsCore 10 (n + 1) n [] := rfl
  rw [hdata] at hc
  exact toDigitsCore_digits (n + 1) n [] (by intro x hx; cases hx) c hc

/-- Every probed candidate stays inside the slug alphabet, given that the
base does. -/
lemma slugCandidate_chars (base : String)
    (hbase : ∀ c ∈ base.data, isSlugChar c = true) (i : Nat) :
    ∀ c ∈ (slugCandidate base i).data, isSlugChar c = true := by
  intro c hc
  cases i with
  | zero => exact hbase c hc
  | succ i =>
    unfold slugCandidate at hc
    rw [String.data_append, String.data_append] at hc
    rcases List.mem_append.1 hc with hc | hc
    · rcases List.mem_append.1 hc with hc | hc
      · exact hbase c hc
      · rcases List.mem_singleton.1 hc with rfl
        decide
    · have hdig := repr_digits (i + 1) c hc
      unfold isSlugChar
      simp only [Bool.or_eq_true]
      exact Or.inl (Or.inl (Or.inr hdig))

/-- No probed candidate is the empty string when the base is nonempty. -/
lemma slugCandidate_ne_empty (base : String) (hb : base ≠ "") (i : Nat) :
    slugCandidate base i ≠ "" := by
  cases i with
  | zero => exact hb
  | succ i =>
    unfold slugCandidate
    intro h
    have hd := congrArg String.data h
    rw [String.data_append, String.data_append] at hd
    simp at hd

/-- C2 amended: the returned slug is free according to existsCheck, is
nonempty, is drawn from the alphabet the code actually emits — lowercase
letters, digits, hyphen AND underscore (Django slugify keeps underscores) —
and is either the 50-character-bounded base or the base with a hyphen-number
suffix, in which case the total length may exceed 50; the base is not
re-trimmed of trailing hyphens after truncation. -/
theorem slug_assignment_amended (existsCheck : String → Bool) (source : String)
    (h : ∃ i, existsCheck (slugCandidate (slugBase source) i) = false) :
    existsCheck (generate_unique_slug existsCheck source h) = false ∧
    generate_unique_slug existsCheck source h ≠ "" ∧
    (∀ c ∈ (generate_unique_slug existsCheck source h).data, isSlugChar c = true) ∧
    (slugBase source).length ≤ 50 ∧
    (generate_unique_slug existsCheck source h = slugBase source ∨
      ∃ i, 1 ≤ i ∧ generate_unique_slug existsCheck source h =
        slugBase source ++ "-" ++ Nat.repr i) := by
  obtain ⟨hlen, hne, hchars⟩ := slugBase_spec source
  refine ⟨Nat.find_spec h, slugCandidate_ne_empty _ hne _,
    slugCandidate_chars _ hchars _, hlen, ?_⟩
  unfold generate_unique_slug
  cases Nat.find h with
  | zero => exact Or.inl rfl
  | succ i => exact Or.inr ⟨i + 1, by omega, rfl⟩

/-- The probe terminates immediately on an empty table. -/
theorem noClash_free :
    ∃ i, noClash (slugCandidate (slugBase "Hello World") i) = false := ⟨0, rfl⟩

/-- Witness for the amended C2 at a concrete title and empty table. -/
theorem slug_assignment_amended_witness :
    noClash (generate_unique_slug noClash "Hello World" noClash_free) = false ∧
    generate_unique_slug noClash "Hello World" noClash_free ≠ "" :=
  ⟨(slug_assignment_amended noClash "Hello World" noClash_free).1,
   (slug_assignment_amended noClash "Hello World" noClash_free).2.1⟩

/-- The probe terminates on the one-slug table at the first suffix. -/
theorem cexExists_free :
    ∃ i, cexExists (slugCandidate (slugBase cexSource) i) = false := ⟨1, by decide⟩

/-- C2 fails as stated: on the 52-character underscore-riddled source, with
the base slug already taken, the returned slug is the 50-character base plus
the suffix -1, so it is 52 characters long and contains underscores — it
neither matches the lowercase-digits-hyphen alphabet nor respects the
50-character bound. -/
theorem slug_assignment_counterexample :
    ¬((generate_unique_slug cexExists cexSource cexExists_free).length ≤ 50 ∧
      ∀ c ∈ (generate_unique_slug cexExists cexSource cexExists_free).data,
        (('a' ≤ c && c ≤ 'z') || ('0' ≤ c && c ≤ '9') || c = '-') = true) := by
  have hfind : Nat.find cexExists_free = 1 := by
    rw [Nat.find_eq_iff]
    exact ⟨by decide, by decide⟩
  have hval : generate_unique_slug cexExists cexSource cexExists_free =
      slugBase cexSource ++ "-" ++ Nat.repr 1 := by
    unfold generate_unique_slug
    rw [hfind]
    rfl
  rw [hval]
  decide

end EchoNote
